import Mathlib

/-!
Verification development for the migration execution context of
`src/alembic/context.py` (the `Context` class, its run loop, the version
pointer operations, and the module level configuration registry).

The embedding is shallow: revisions are `Option String` (with `none` for the
"no migrations applied" sentinel Python spells `None`), the mutable run state
(version table rows, rendered output, executed statements) is threaded
explicitly, and fallible code returns `Except`.
-/

namespace Alembic

/-- Python truthiness of an optional string: `None` and `""` are falsy. -/
def pyTruthy : Option String → Bool
  | none => false
  | some s => !(s == "")

/-- A revision identifier, or `none` for "no migrations applied". -/
abbrev RevisionId := Option String

/-- A statement reaching the execution sink: the version-table statements
issued by `Context._update_current_rev`, the version-table DDL issued by
`run_migrations` / `_current_rev`, or an opaque statement issued by a
migration script's own `upgrade` / `downgrade` body. -/
inductive Stmt where
  | deleteVersion : Stmt
  | insertVersion (v : String) : Stmt
  | updateVersion (v : String) : Stmt
  | createTable : Stmt
  | dropTable : Stmt
  | custom (t : String) : Stmt
deriving DecidableEq, Repr

/-- One item of the rendered SQL output (`--sql` mode): the `BEGIN;` and
`COMMIT;` markers and the `-- Running ...` step header are emitted through
`static_output`, rendered statements through `impl._exec`. -/
inductive OutputItem where
  | beginMarker : OutputItem
  | commitMarker : OutputItem
  | header (name : String) (fromRev toRev : RevisionId) : OutputItem
  | stmt (s : Stmt) : OutputItem
deriving DecidableEq, Repr

/-- One element yielded by the migration sequencer `self._migrations_fn`:
the tuple `(change, prev_rev, rev)` of `run_migrations`.  The apply function
`change` is modelled by the list of opaque statements it issues and a flag
saying whether it succeeds (`ok = false` models `change(**kw)` raising). -/
structure MigrationStep where
  name : String
  stmts : List String
  ok : Bool
  fromRev : RevisionId
  toRev : RevisionId
deriving DecidableEq, Repr

/-- The configuration of one `Context`: `as_sql` (Rendering vs Live mode),
the resolved `impl.transactional_ddl` flag, and `_start_from_rev`.
Modelled from the spec: the resolution of `transactional_ddl` from the
explicit option or the dialect default happens inside `alembic.ddl`
(not under `src/`); here the context carries the already resolved flag. -/
structure Ctx where
  as_sql : Bool
  transactional_ddl : Bool
  start_from_rev : Option String
deriving DecidableEq, Repr

/-- The observable state threaded through one run: the live
`alembic_version` table (whether it exists and its rows), the rendered
output (Rendering mode), the trace of statements executed against the live
connection, and the trace of `_update_current_rev` invocations. -/
structure RunState where
  table_exists : Bool
  rows : List String
  output : List OutputItem
  live_execs : List Stmt
  write_calls : List (RevisionId × RevisionId)
deriving DecidableEq, Repr

/-- Modelled from the spec: the effect of one statement on the rows of the
single-row version pointer table when executed on a live connection
(`alembic.ddl`'s live executor is not under `src/`).  `DELETE` removes all
rows, `INSERT` appends one, `UPDATE` rewrites every existing row in place;
a migration script's own statements do not touch the pointer table. -/
def applyToRows (rows : List String) : Stmt → List String
  | .deleteVersion => []
  | .insertVersion v => rows ++ [v]
  | .updateVersion v => rows.map fun _ => v
  | .dropTable => []
  | _ => rows

/-- Modelled from the spec: the effect of one statement on the existence of
the version pointer table. -/
def applyToTable (ex : Bool) : Stmt → Bool
  | .createTable => true
  | .dropTable => false
  | _ => ex

/-- Modelled from the spec: `impl._exec` (ExecutionSink).  In Rendering mode
(`as_sql`) the statement is serialized to the output stream and no live state
changes; in Live mode it is executed against the connection. -/
def execStmt (c : Ctx) (s : RunState) (st : Stmt) : RunState :=
  if c.as_sql then { s with output := s.output ++ [.stmt st] }
  else { s with rows := applyToRows s.rows st,
                table_exists := applyToTable s.table_exists st,
                live_execs := s.live_execs ++ [st] }

/-- Modelled from the spec: `impl.static_output`, which appends one
annotation to the output stream.  Every call site in
`Context.run_migrations` is guarded by `if self.as_sql`. -/
def staticOutput (s : RunState) (item : OutputItem) : RunState :=
  { s with output := s.output ++ [item] }

/-- The trace entry recorded for one invocation of
`Context._update_current_rev` (instrumentation used to state how often and
with which arguments the pointer write operation is called). -/
def logWrite (s : RunState) (old nw : RevisionId) : RunState :=
  { s with write_calls := s.write_calls ++ [(old, nw)] }

/-- `Context._update_current_rev(old, new)`: a no-op when `old == new`;
otherwise a `DELETE` when `new is None`, an `INSERT` when `old is None`,
and an in-place `UPDATE` otherwise. -/
def update_current_rev (c : Ctx) (s : RunState) (old nw : RevisionId) : RunState :=
  if old = nw then s
  else
    match nw with
    | none => execStmt c s .deleteVersion
    | some v =>
      match old with
      | none => execStmt c s (.insertVersion v)
      | some _ => execStmt c s (.updateVersion v)

/-- The error message of the `util.CommandError` raised by
`Context._current_rev` when a starting revision was supplied together with a
database connection. -/
def startingRevError : String :=
  "Cannot specify current_rev to context when using a database connection"

/-- `Context._current_rev`: in Rendering mode returns `_start_from_rev`
directly; in Live mode raises `CommandError` when `_start_from_rev` is
truthy, otherwise creates the version table if absent (`checkfirst=True`)
and returns the scalar of `SELECT` over it (`none` when no row exists). -/
def current_rev (c : Ctx) (s : RunState) : Except String (RevisionId × RunState) :=
  if c.as_sql then .ok (c.start_from_rev, s)
  else if pyTruthy c.start_from_rev then .error startingRevError
  else
    let s1 := { s with table_exists := true }
    .ok (s1.rows.head?, s1)

/-- The `-- Running %s %s -> %s` header emitted for one step. -/
def stepHeader (st : MigrationStep) : OutputItem :=
  .header st.name st.fromRev st.toRev

/-- The statements a migration step's apply function pushes through the
execution sink, in order. -/
def execCustoms (c : Ctx) (s : RunState) : List String → RunState
  | [] => s
  | t :: rest => execCustoms c (execStmt c s (.custom t)) rest

/-- The `for change, prev_rev, rev in self._migrations_fn(...)` loop of
`Context.run_migrations`: `currentRev` is the loop-local `current_rev`
variable (`none` models its `False` sentinel, likewise `rev`).  On the first
iteration `current_rev` captures the step's `prev_rev` and, in Rendering mode
with a falsy anchor, the version table creation is rendered; then the header
is rendered (Rendering mode), the step's apply function runs, and with
non-transactional DDL the pointer is committed immediately. -/
def run_steps (c : Ctx) :
    List MigrationStep → Option RevisionId → Option RevisionId → RunState →
    Except (String × RunState) (Option RevisionId × Option RevisionId × RunState)
  | [], currentRev, rev, s => .ok (currentRev, rev, s)
  | st :: rest, currentRev, _rev, s =>
    let currentRev' := match currentRev with
      | none => some st.fromRev
      | some cr => some cr
    let s0 := match currentRev with
      | none => if c.as_sql && !pyTruthy st.fromRev then execStmt c s .createTable else s
      | some _ => s
    let s1 := if c.as_sql then staticOutput s0 (stepHeader st) else s0
    let s2 := execCustoms c s1 st.stmts
    if st.ok then
      let s3 := if c.transactional_ddl then s2
        else update_current_rev c (logWrite s2 st.fromRev st.toRev) st.fromRev st.toRev
      run_steps c rest currentRev' (some st.toRev) s3
    else .error (st.name ++ " failed", s2)

/-- `Context.run_migrations`: emit `BEGIN;` (Rendering and transactional),
read the current revision, drive the step loop, and afterwards, when at least
one step ran: commit the single deferred pointer write (transactional DDL)
and render the version table drop when the final revision is falsy
(Rendering mode); finally emit `COMMIT;` (Rendering and transactional). -/
def run_migrations (c : Ctx) (fn : RevisionId → List MigrationStep) (s : RunState) :
    Except (String × RunState) RunState :=
  let sb := if c.as_sql && c.transactional_ddl then staticOutput s .beginMarker else s
  match current_rev c sb with
  | .error e => .error (e, sb)
  | .ok (start, s1) =>
    match run_steps c (fn start) none none s1 with
    | .error e => .error e
    | .ok (currentRev, rev, s2) =>
      let s3 :=
        match rev with
        | none => s2
        | some r =>
          let s3a := if c.transactional_ddl then
              update_current_rev c (logWrite s2 (currentRev.getD none) r)
                (currentRev.getD none) r
            else s2
          if c.as_sql && !pyTruthy r then execStmt c s3a .dropTable else s3a
      .ok (if c.as_sql && c.transactional_ddl then staticOutput s3 .commitMarker else s3)

/-- The process-wide `_context_opts` dictionary: each recognized key is
either present (`some`) or absent (`none`).  The `fn` entry (the sequencer
callback installed by `_opts`) is threaded separately as a function. -/
structure ContextOpts where
  as_sql : Option Bool
  transactional_ddl : Option Bool
  output_buffer : Option Nat
  starting_rev : Option String
  tag : Option String
deriving DecidableEq, Repr

/-- The empty `_context_opts` dictionary. -/
def emptyOpts : ContextOpts := ⟨none, none, none, none, none⟩

/-- `_clear`: resets `_context_opts` to the empty dictionary (and drops the
active context and script, which are not part of this state). -/
def clearOpts (_o : ContextOpts) : ContextOpts := emptyOpts

/-- The arguments `configure` hands to `Context.__init__`: whether a live
connection was supplied, and the values read back from the options
dictionary.  `output_buffer` identity is modelled by an opaque tag. -/
structure BuiltContext where
  has_connection : Bool
  as_sql : Bool
  output_buffer : Option Nat
  transactional_ddl : Option Bool
  starting_rev : Option String
deriving DecidableEq, Repr

/-- `alembic.context.configure`: resolve a dialect from `connection`, `url`
or `dialect_name` (raising when none is given), merge the non-`None`
(for `starting_rev` and `tag`: truthy) arguments into `_context_opts`, and
build the new `Context` from the merged dictionary. -/
def configure (opts : ContextOpts) (connection : Bool) (url : Option String)
    (dialect_name : Option String) (t_ddl : Option Bool) (out_buf : Option Nat)
    (st_rev : Option String) (tg : Option String) :
    Except String (ContextOpts × BuiltContext) :=
  if connection || pyTruthy url || pyTruthy dialect_name then
    let o1 := match t_ddl with
      | some b => { opts with transactional_ddl := some b }
      | none => opts
    let o2 := match out_buf with
      | some b => { o1 with output_buffer := some b }
      | none => o1
    let o3 := if pyTruthy st_rev then { o2 with starting_rev := st_rev } else o2
    let o4 := if pyTruthy tg then { o3 with tag := tg } else o3
    .ok (o4,
      { has_connection := connection,
        as_sql := o4.as_sql.getD false,
        output_buffer := o4.output_buffer,
        transactional_ddl := o4.transactional_ddl,
        starting_rev := o4.starting_rev })
  else .error "Connection, url, or dialect_name is required."

/-- Modelled from the spec: `Context.__init__` passes `transactional_ddl`
to the `DefaultImpl` (in `alembic.ddl`, not under `src/`), which falls back
to the dialect's default capability when the option is `None`. -/
def toCtx (b : BuiltContext) (dialectDefault : Bool) : Ctx :=
  { as_sql := b.as_sql,
    transactional_ddl := b.transactional_ddl.getD dialectDefault,
    start_from_rev := b.starting_rev }

/-- The revision `run_migrations` hands to the sequencer: the value
`_current_rev` returns on its non-raising paths. -/
def anchorOf (c : Ctx) (s : RunState) : RevisionId :=
  if c.as_sql then c.start_from_rev else s.rows.head?

/-- The loop variable `rev` after iterating the given steps, starting from
the given earlier value (`none` models the `False` sentinel). -/
def lastRevD : List MigrationStep → Option RevisionId → Option RevisionId
  | [], rev => rev
  | st :: rest, _ => lastRevD rest (some st.toRev)

/-- The `toRev` of the last of the given steps, or the default when there
are none. -/
def lastToRevD : List MigrationStep → RevisionId → RevisionId
  | [], d => d
  | st :: rest, _ => lastToRevD rest st.toRev

/-- The sequencer contract: each step starts at the given revision
(respectively at the previous step's `toRev`). -/
def chainb : RevisionId → List MigrationStep → Bool
  | _, [] => true
  | r, st :: rest => (st.fromRev == r) && chainb st.toRev rest

/-- Every step's apply function succeeds. -/
def allOk : List MigrationStep → Bool
  | [] => true
  | st :: rest => st.ok && allOk rest

/-- The rows of a well-formed pointer table holding the given revision:
no row for `none`, one row otherwise. -/
def rowsFor : RevisionId → List String
  | none => []
  | some v => [v]

/-- The statements `_update_current_rev old nw` pushes through the sink:
none, or exactly one of `DELETE` / `INSERT` / `UPDATE`. -/
def versionStmts (old nw : RevisionId) : List Stmt :=
  if old = nw then []
  else match nw with
    | none => [.deleteVersion]
    | some v => match old with
      | none => [.insertVersion v]
      | some _ => [.updateVersion v]

/-- The output block one step contributes in Rendering mode: its header,
its own statements and, with non-transactional DDL, the immediate pointer
write. -/
def stepRender (c : Ctx) (st : MigrationStep) : List OutputItem :=
  stepHeader st :: (st.stmts.map fun t => OutputItem.stmt (.custom t))
    ++ (if c.transactional_ddl then []
        else (versionStmts st.fromRev st.toRev).map OutputItem.stmt)

/-- The concatenated Rendering-mode blocks of a list of steps. -/
def sqlRender (c : Ctx) : List MigrationStep → List OutputItem
  | [] => []
  | st :: rest => stepRender c st ++ sqlRender c rest

/-- The pointer write calls issued inside the loop (one per step with
non-transactional DDL, none with transactional DDL). -/
def writesOf (c : Ctx) : List MigrationStep → List (RevisionId × RevisionId)
  | [] => []
  | st :: rest =>
    (if c.transactional_ddl then [] else [(st.fromRev, st.toRev)]) ++ writesOf c rest

/-- The whole rendered output of one successful Rendering-mode run over the
given steps: optional `BEGIN;`, version-table creation when the anchor is
falsy, one block per step, the deferred pointer write (transactional DDL),
the version-table drop when the final revision is falsy, and the optional
`COMMIT;`. -/
def sqlRunRender (c : Ctx) (steps : List MigrationStep) : List OutputItem :=
  (if c.transactional_ddl then [OutputItem.beginMarker] else [])
  ++ (match steps with
      | [] => []
      | st0 :: rest =>
        (if !pyTruthy st0.fromRev then [OutputItem.stmt .createTable] else [])
        ++ sqlRender c (st0 :: rest)
        ++ (if c.transactional_ddl then
              (versionStmts st0.fromRev (lastToRevD rest st0.toRev)).map OutputItem.stmt
            else [])
        ++ (if !pyTruthy (lastToRevD rest st0.toRev) then [OutputItem.stmt .dropTable]
            else []))
  ++ (if c.transactional_ddl then [OutputItem.commitMarker] else [])

/-- The full trace of `_update_current_rev` invocations of one successful
run over the given steps. -/
def runWrites (c : Ctx) (steps : List MigrationStep) : List (RevisionId × RevisionId) :=
  match steps with
  | [] => []
  | st0 :: rest =>
    writesOf c (st0 :: rest)
      ++ (if c.transactional_ddl then [(st0.fromRev, lastToRevD rest st0.toRev)] else [])

/-- Whether an output item is a step header. -/
def isHeader : OutputItem → Bool
  | .header _ _ _ => true
  | _ => false

/-- The number of step headers in a rendered output. -/
def countHeaders : List OutputItem → Nat
  | [] => 0
  | it :: rest => (if isHeader it then 1 else 0) + countHeaders rest

/-- The new rows of the pointer table after `_update_current_rev old nw`
executes on a live connection. -/
def writeRows (rows : List String) (old nw : RevisionId) : List String :=
  if old = nw then rows
  else match nw with
    | none => []
    | some v => match old with
      | none => rows ++ [v]
      | some _ => rows.map fun _ => v

lemma pyTruthy_none : pyTruthy none = false := rfl

lemma execStmt_sql (c : Ctx) (s : RunState) (st : Stmt) (h : c.as_sql = true) :
    execStmt c s st = { s with output := s.output ++ [.stmt st] } := by
  simp [execStmt, h]

lemma execStmt_live (c : Ctx) (s : RunState) (st : Stmt) (h : c.as_sql = false) :
    execStmt c s st = { s with rows := applyToRows s.rows st,
                               table_exists := applyToTable s.table_exists st,
                               live_execs := s.live_execs ++ [st] } := by
  simp [execStmt, h]

lemma execCustoms_sql (c : Ctx) (h : c.as_sql = true) :
    ∀ (l : List String) (s : RunState),
      execCustoms c s l
        = { s with output := s.output ++ l.map fun t => OutputItem.stmt (.custom t) } := by
  intro l
  induction l with
  | nil => intro s; simp [execCustoms]
  | cons t rest ih =>
    intro s
    simp [execCustoms, execStmt_sql c _ _ h, ih]

lemma execCustoms_live (c : Ctx) (h : c.as_sql = false) :
    ∀ (l : List String) (s : RunState),
      execCustoms c s l = { s with live_execs := s.live_execs ++ l.map Stmt.custom } := by
  intro l
  induction l with
  | nil => intro s; simp [execCustoms]
  | cons t rest ih =>
    intro s
    simp [execCustoms, execStmt_live c _ _ h, applyToRows, applyToTable, ih]

lemma execCustoms_rows (c : Ctx) (s : RunState) (l : List String) :
    (execCustoms c s l).rows = s.rows := by
  cases h : c.as_sql
  · simp [execCustoms_live c h]
  · simp [execCustoms_sql c h]

lemma execCustoms_table (c : Ctx) (s : RunState) (l : List String) :
    (execCustoms c s l).table_exists = s.table_exists := by
  cases h : c.as_sql
  · simp [execCustoms_live c h]
  · simp [execCustoms_sql c h]

lemma execCustoms_write_calls (c : Ctx) (s : RunState) (l : List String) :
    (execCustoms c s l).write_calls = s.write_calls := by
  cases h : c.as_sql
  · simp [execCustoms_live c h]
  · simp [execCustoms_sql c h]

lemma update_sql (c : Ctx) (s : RunState) (old nw : RevisionId) (h : c.as_sql = true) :
    update_current_rev c s old nw
      = { s with output := s.output ++ (versionStmts old nw).map OutputItem.stmt } := by
  by_cases he : old = nw
  · simp [update_current_rev, versionStmts, he]
  · cases nw with
    | none => simp [update_current_rev, versionStmts, he, execStmt_sql c _ _ h]
    | some v =>
      cases old with
      | none => simp [update_current_rev, versionStmts, he, execStmt_sql c _ _ h]
      | some o => simp [update_current_rev, versionStmts, he, execStmt_sql c _ _ h]

lemma update_live (c : Ctx) (s : RunState) (old nw : RevisionId) (h : c.as_sql = false) :
    update_current_rev c s old nw
      = { s with rows := writeRows s.rows old nw,
                 live_execs := s.live_execs ++ versionStmts old nw } := by
  by_cases he : old = nw
  · simp [update_current_rev, versionStmts, writeRows, he]
  · cases nw with
    | none =>
      simp [update_current_rev, versionStmts, writeRows, he, execStmt_live c _ _ h,
        applyToRows, applyToTable]
    | some v =>
      cases old with
      | none =>
        simp [update_current_rev, versionStmts, writeRows, he, execStmt_live c _ _ h,
          applyToRows, applyToTable]
      | some o =>
        simp [update_current_rev, versionStmts, writeRows, he, execStmt_live c _ _ h,
          applyToRows, applyToTable]

lemma update_write_calls (c : Ctx) (s : RunState) (old nw : RevisionId) :
    (update_current_rev c s old nw).write_calls = s.write_calls := by
  cases h : c.as_sql
  · simp [update_live c s old nw h]
  · simp [update_sql c s old nw h]

lemma update_table (c : Ctx) (s : RunState) (old nw : RevisionId) (h : c.as_sql = false) :
    (update_current_rev c s old nw).table_exists = s.table_exists := by
  simp [update_live c s old nw h]

lemma writeRows_rowsFor (old nw : RevisionId) :
    writeRows (rowsFor old) old nw = rowsFor nw := by
  by_cases he : old = nw
  · simp [writeRows, he]
  · cases nw with
    | none => simp [writeRows, he, rowsFor]
    | some v =>
      cases old with
      | none => simp [writeRows, he, rowsFor]
      | some o => simp [writeRows, he, rowsFor]

lemma rowsFor_head (r : RevisionId) : (rowsFor r).head? = r := by
  cases r <;> simp [rowsFor]

lemma lastRevD_some (steps : List MigrationStep) :
    ∀ r : RevisionId, lastRevD steps (some r) = some (lastToRevD steps r) := by
  induction steps with
  | nil => intro r; simp [lastRevD, lastToRevD]
  | cons st rest ih => intro r; simp [lastRevD, lastToRevD, ih]

lemma run_steps_sql (c : Ctx) (h : c.as_sql = true) :
    ∀ (steps : List MigrationStep) (cr : RevisionId) (rev : Option RevisionId)
      (s : RunState), allOk steps = true →
      run_steps c steps (some cr) rev s
        = .ok (some cr, lastRevD steps rev,
            { s with output := s.output ++ sqlRender c steps,
                     write_calls := s.write_calls ++ writesOf c steps }) := by
  intro steps
  induction steps with
  | nil =>
    intro cr rev s _
    simp [run_steps, sqlRender, writesOf, lastRevD]
  | cons st rest ih =>
    intro cr rev s hok
    obtain ⟨hst, hrest⟩ : st.ok = true ∧ allOk rest = true := by
      simpa [allOk, Bool.and_eq_true] using hok
    cases ht : c.transactional_ddl
    · simp only [run_steps, h, ht, hst, if_true, Bool.false_eq_true, if_false,
        staticOutput, execCustoms_sql c h, update_sql _ _ _ _ h, logWrite]
      rw [ih _ _ _ hrest]
      simp [sqlRender, stepRender, writesOf, ht, lastRevD, List.append_assoc]
    · simp only [run_steps, h, ht, hst, if_true, staticOutput,
        execCustoms_sql c h]
      rw [ih _ _ _ hrest]
      simp [sqlRender, stepRender, writesOf, ht, lastRevD, List.append_assoc]

lemma run_steps_trans (c : Ctx) (ht : c.transactional_ddl = true) :
    ∀ (steps : List MigrationStep) (cr : RevisionId) (rev : Option RevisionId)
      (s : RunState), allOk steps = true →
      ∃ s', run_steps c steps (some cr) rev s = .ok (some cr, lastRevD steps rev, s') ∧
        s'.write_calls = s.write_calls ∧ s'.rows = s.rows ∧
        s'.table_exists = s.table_exists ∧
        (c.as_sql = false → s'.output = s.output) := by
  intro steps
  induction steps with
  | nil =>
    intro cr rev s _
    exact ⟨s, by simp [run_steps, lastRevD], rfl, rfl, rfl, fun _ => rfl⟩
  | cons st rest ih =>
    intro cr rev s hok
    obtain ⟨hst, hrest⟩ : st.ok = true ∧ allOk rest = true := by
      simpa [allOk, Bool.and_eq_true] using hok
    cases hq : c.as_sql
    · simp only [run_steps, hq, ht, hst, if_true, Bool.false_eq_true, if_false]
      obtain ⟨s', heq, hw, hr, htb, hout⟩ := ih cr (some st.toRev) (execCustoms c s st.stmts) hrest
      refine ⟨s', heq, ?_, ?_, ?_, ?_⟩
      · rw [hw, execCustoms_write_calls]
      · rw [hr, execCustoms_rows]
      · rw [htb, execCustoms_table]
      · intro _
        rw [hout hq, execCustoms_live c hq]
    · simp only [run_steps, hq, ht, hst, if_true, staticOutput]
      obtain ⟨s', heq, hw, hr, htb, _⟩ :=
        ih cr (some st.toRev) (execCustoms c (staticOutput s (stepHeader st)) st.stmts) hrest
      refine ⟨s', by simpa [staticOutput] using heq, ?_, ?_, ?_, ?_⟩
      · rw [hw, execCustoms_write_calls]; simp [staticOutput]
      · rw [hr, execCustoms_rows]; simp [staticOutput]
      · rw [htb, execCustoms_table]; simp [staticOutput]
      · intro hc; exact absurd hc (by simp [hq])

lemma run_steps_cons_live (c : Ctx) (h : c.as_sql = false)
    (ht : c.transactional_ddl = false) (st : MigrationStep) (rest : List MigrationStep)
    (curr rev : Option RevisionId) (s : RunState) (hst : st.ok = true) :
    ∃ curr2, run_steps c (st :: rest) curr rev s
      = run_steps c rest curr2 (some st.toRev)
          (update_current_rev c (logWrite (execCustoms c s st.stmts) st.fromRev st.toRev)
            st.fromRev st.toRev) := by
  cases curr with
  | none =>
    refine ⟨some st.fromRev, ?_⟩
    simp [run_steps, h, ht, hst]
  | some cr =>
    refine ⟨some cr, ?_⟩
    simp [run_steps, h, ht, hst]

lemma run_steps_cons_fail (c : Ctx) (h : c.as_sql = false) (bad : MigrationStep)
    (rest : List MigrationStep) (curr rev : Option RevisionId) (s : RunState)
    (hbad : bad.ok = false) :
    run_steps c (bad :: rest) curr rev s
      = .error (bad.name ++ " failed", execCustoms c s bad.stmts) := by
  cases curr with
  | none => simp [run_steps, h, hbad]
  | some cr => simp [run_steps, h, hbad]

lemma run_steps_nt_live (c : Ctx) (h : c.as_sql = false)
    (ht : c.transactional_ddl = false) :
    ∀ (steps : List MigrationStep) (curr : Option RevisionId) (rev : Option RevisionId)
      (a : RevisionId) (s : RunState),
      chainb a steps = true → allOk steps = true → s.rows = rowsFor a →
      ∃ curr' s', run_steps c steps curr rev s = .ok (curr', lastRevD steps rev, s') ∧
        s'.rows = rowsFor (lastToRevD steps a) ∧
        s'.write_calls = s.write_calls ++ steps.map (fun st => (st.fromRev, st.toRev)) := by
  intro steps
  induction steps with
  | nil =>
    intro curr rev a s _ _ hrows
    exact ⟨curr, s, by simp [run_steps, lastRevD], by simpa [lastToRevD] using hrows, by simp⟩
  | cons st rest ih =>
    intro curr rev a s hchain hok hrows
    obtain ⟨hfrom, hrest_chain⟩ : st.fromRev = a ∧ chainb st.toRev rest = true := by
      simpa [chainb, Bool.and_eq_true] using hchain
    obtain ⟨hst, hrest⟩ : st.ok = true ∧ allOk rest = true := by
      simpa [allOk, Bool.and_eq_true] using hok
    obtain ⟨curr2, hbody⟩ := run_steps_cons_live c h ht st rest curr rev s hst
    set s3 := update_current_rev c (logWrite (execCustoms c s st.stmts) st.fromRev st.toRev)
      st.fromRev st.toRev with hs3
    have hrows3 : s3.rows = rowsFor st.toRev := by
      rw [hs3, update_live _ _ _ _ h]
      simp only [logWrite]
      have hx : (execCustoms c s st.stmts).rows = rowsFor st.fromRev := by
        rw [execCustoms_rows, hrows, hfrom]
      simp [hx, writeRows_rowsFor]
    have hw3 : s3.write_calls = s.write_calls ++ [(st.fromRev, st.toRev)] := by
      rw [hs3, update_write_calls]
      simp [logWrite, execCustoms_write_calls]
    obtain ⟨curr', s', heq, hr, hw⟩ :=
      ih curr2 (some st.toRev) st.toRev s3 hrest_chain hrest hrows3
    refine ⟨curr', s', ?_, ?_, ?_⟩
    · rw [hbody, heq]
      simp [lastRevD]
    · simpa [lastToRevD] using hr
    · rw [hw, hw3]
      simp [List.append_assoc]

lemma run_steps_fail (c : Ctx) (h : c.as_sql = false)
    (ht : c.transactional_ddl = false) :
    ∀ (pre : List MigrationStep) (bad : MigrationStep) (rest : List MigrationStep)
      (curr : Option RevisionId) (rev : Option RevisionId) (a : RevisionId) (s : RunState),
      allOk pre = true → bad.ok = false →
      chainb a (pre ++ bad :: rest) = true → s.rows = rowsFor a →
      ∃ s_err, run_steps c (pre ++ bad :: rest) curr rev s
          = .error (bad.name ++ " failed", s_err) ∧
        s_err.rows = rowsFor bad.fromRev ∧
        s_err.write_calls = s.write_calls ++ pre.map (fun st => (st.fromRev, st.toRev)) := by
  intro pre
  induction pre with
  | nil =>
    intro bad rest curr rev a s _ hbad hchain hrows
    obtain ⟨hfrom, _⟩ : bad.fromRev = a ∧ chainb bad.toRev rest = true := by
      simpa [chainb, Bool.and_eq_true] using hchain
    refine ⟨execCustoms c s bad.stmts, ?_, ?_, ?_⟩
    · simpa using run_steps_cons_fail c h bad rest curr rev s hbad
    · rw [execCustoms_rows, hrows, hfrom]
    · simp [execCustoms_write_calls]
  | cons st pt ih =>
    intro bad rest curr rev a s hok hbad hchain hrows
    obtain ⟨hfrom, hrest_chain⟩ : st.fromRev = a ∧ chainb st.toRev (pt ++ bad :: rest) = true := by
      simpa [chainb, Bool.and_eq_true] using hchain
    obtain ⟨hst, hpt⟩ : st.ok = true ∧ allOk pt = true := by
      simpa [allOk, Bool.and_eq_true] using hok
    obtain ⟨curr2, hbody⟩ :=
      run_steps_cons_live c h ht st (pt ++ bad :: rest) curr rev s hst
    set s3 := update_current_rev c (logWrite (execCustoms c s st.stmts) st.fromRev st.toRev)
      st.fromRev st.toRev with hs3
    have hrows3 : s3.rows = rowsFor st.toRev := by
      rw [hs3, update_live _ _ _ _ h]
      simp only [logWrite]
      have hx : (execCustoms c s st.stmts).rows = rowsFor st.fromRev := by
        rw [execCustoms_rows, hrows, hfrom]
      simp [hx, writeRows_rowsFor]
    have hw3 : s3.write_calls = s.write_calls ++ [(st.fromRev, st.toRev)] := by
      rw [hs3, update_write_calls]
      simp [logWrite, execCustoms_write_calls]
    obtain ⟨s_err, heq, hr, hw⟩ :=
      ih bad rest curr2 (some st.toRev) st.toRev s3 hpt hbad hrest_chain hrows3
    refine ⟨s_err, ?_, hr, ?_⟩
    · rw [List.cons_append, hbody, heq]
    · rw [hw, hw3]
      simp [List.append_assoc]

lemma writesOf_nontrans (c : Ctx) (ht : c.transactional_ddl = false) :
    ∀ steps : List MigrationStep,
      writesOf c steps = steps.map (fun st => (st.fromRev, st.toRev)) := by
  intro steps
  induction steps with
  | nil => simp [writesOf]
  | cons st rest ih => simp [writesOf, ht, ih]

lemma writesOf_trans (c : Ctx) (ht : c.transactional_ddl = true) :
    ∀ steps : List MigrationStep, writesOf c steps = [] := by
  intro steps
  induction steps with
  | nil => simp [writesOf]
  | cons st rest ih => simp [writesOf, ht, ih]

lemma runWrites_nontrans (c : Ctx) (ht : c.transactional_ddl = false)
    (steps : List MigrationStep) :
    runWrites c steps = steps.map (fun st => (st.fromRev, st.toRev)) := by
  cases steps with
  | nil => simp [runWrites]
  | cons st rest => simp [runWrites, ht, writesOf, writesOf_nontrans c ht]

lemma runWrites_trans (c : Ctx) (ht : c.transactional_ddl = true)
    (st0 : MigrationStep) (rest : List MigrationStep) :
    runWrites c (st0 :: rest) = [(st0.fromRev, lastToRevD rest st0.toRev)] := by
  simp [runWrites, ht, writesOf, writesOf_trans c ht]

lemma run_steps_cons_sql (c : Ctx) (h : c.as_sql = true) (st : MigrationStep)
    (rest : List MigrationStep) (rev : Option RevisionId) (s : RunState)
    (hst : st.ok = true) :
    run_steps c (st :: rest) none rev s
      = run_steps c rest (some st.fromRev) (some st.toRev)
          (let s2 : RunState := { s with output := s.output
              ++ (if !pyTruthy st.fromRev then [OutputItem.stmt .createTable] else [])
              ++ [stepHeader st] ++ (st.stmts.map fun t => OutputItem.stmt (.custom t)) }
           if c.transactional_ddl then s2
           else update_current_rev c (logWrite s2 st.fromRev st.toRev) st.fromRev st.toRev) := by
  cases hc : pyTruthy st.fromRev <;>
    simp [run_steps, h, hst, hc, execStmt_sql _ _ _ h, staticOutput,
      execCustoms_sql c h, List.append_assoc]

lemma run_steps_cons_trans_live (c : Ctx) (h : c.as_sql = false)
    (ht : c.transactional_ddl = true) (st : MigrationStep) (rest : List MigrationStep)
    (rev : Option RevisionId) (s : RunState) (hst : st.ok = true) :
    run_steps c (st :: rest) none rev s
      = run_steps c rest (some st.fromRev) (some st.toRev) (execCustoms c s st.stmts) := by
  simp [run_steps, h, ht, hst]

lemma run_sql_ok (c : Ctx) (fn : RevisionId → List MigrationStep) (s : RunState)
    (h : c.as_sql = true) (hok : allOk (fn c.start_from_rev) = true) :
    run_migrations c fn s = .ok
      { s with output := s.output ++ sqlRunRender c (fn c.start_from_rev),
               write_calls := s.write_calls ++ runWrites c (fn c.start_from_rev) } := by
  cases hsteps : fn c.start_from_rev with
  | nil =>
    cases ht : c.transactional_ddl <;>
      simp [run_migrations, current_rev, h, ht, hsteps, run_steps, sqlRunRender,
        runWrites, staticOutput, List.append_assoc]
  | cons st0 rest =>
    rw [hsteps] at hok
    obtain ⟨hst0, hrest⟩ : st0.ok = true ∧ allOk rest = true := by
      simpa [allOk, Bool.and_eq_true] using hok
    cases ht : c.transactional_ddl
    · simp only [run_migrations, current_rev, h, ht, Bool.and_false, Bool.false_eq_true,
        if_false, if_true, hsteps]
      rw [run_steps_cons_sql c h st0 rest none s hst0]
      simp only [ht, Bool.false_eq_true, if_false]
      rw [run_steps_sql c h rest st0.fromRev (some st0.toRev) _ hrest]
      simp only [lastRevD_some]
      rw [update_sql _ _ _ _ h]
      cases hfin : pyTruthy (lastToRevD rest st0.toRev) <;>
        simp [hfin, logWrite, execStmt_sql _ _ _ h, sqlRunRender, runWrites, ht,
          sqlRender, stepRender, writesOf, List.append_assoc]
    · simp only [run_migrations, current_rev, h, ht, Bool.and_true, if_true, hsteps,
        staticOutput]
      rw [run_steps_cons_sql c h st0 rest none _ hst0]
      simp only [ht, if_true]
      rw [run_steps_sql c h rest st0.fromRev (some st0.toRev) _ hrest]
      simp only [lastRevD_some]
      rw [update_sql _ _ _ _ h]
      cases hfin : pyTruthy (lastToRevD rest st0.toRev) <;>
        simp [hfin, logWrite, staticOutput, sqlRunRender, runWrites, ht, sqlRender,
          stepRender, writesOf, writesOf_trans c ht, execStmt_sql _ _ _ h,
          List.append_assoc]

lemma run_live_ok (c : Ctx) (fn : RevisionId → List MigrationStep) (s : RunState)
    (h : c.as_sql = false) (hsr : pyTruthy c.start_from_rev = false)
    (hone : s.rows = rowsFor s.rows.head?)
    (hchain : chainb s.rows.head? (fn s.rows.head?) = true)
    (hok : allOk (fn s.rows.head?) = true) :
    ∃ s', run_migrations c fn s = .ok s' ∧
      s'.rows = rowsFor (lastToRevD (fn s.rows.head?) s.rows.head?) ∧
      s'.write_calls = s.write_calls ++ runWrites c (fn s.rows.head?) := by
  have hs1 : ({ s with table_exists := true } : RunState).rows = rowsFor s.rows.head? := hone
  cases ht : c.transactional_ddl
  · obtain ⟨curr', s', heq, hr, hw⟩ :=
      run_steps_nt_live c h ht (fn s.rows.head?) none none s.rows.head?
        { s with table_exists := true } hchain hok hs1
    refine ⟨s', ?_, hr, ?_⟩
    · simp only [run_migrations, current_rev, h, ht, Bool.and_false, Bool.false_and,
        Bool.false_eq_true, if_false, hsr]
      rw [heq]
      cases hrev : lastRevD (fn s.rows.head?) none <;>
        simp [ht, h]
    · rw [hw, runWrites_nontrans c ht]
  · cases hsteps : fn s.rows.head? with
    | nil =>
      refine ⟨{ s with table_exists := true }, ?_, ?_, ?_⟩
      · simp [run_migrations, current_rev, h, ht, hsr, hsteps, run_steps]
      · simpa [lastToRevD] using hone
      · simp [runWrites]
    | cons st0 rest =>
      rw [hsteps] at hchain hok
      obtain ⟨hfrom, hrest_chain⟩ : st0.fromRev = s.rows.head? ∧ chainb st0.toRev rest = true := by
        simpa [chainb, Bool.and_eq_true] using hchain
      obtain ⟨hst0, hrest⟩ : st0.ok = true ∧ allOk rest = true := by
        simpa [allOk, Bool.and_eq_true] using hok
      obtain ⟨s', heq, hw, hr, htb, hout⟩ :=
        run_steps_trans c ht rest st0.fromRev (some st0.toRev)
          (execCustoms c { s with table_exists := true } st0.stmts) hrest
      refine ⟨update_current_rev c (logWrite s' st0.fromRev (lastToRevD rest st0.toRev))
        st0.fromRev (lastToRevD rest st0.toRev), ?_, ?_, ?_⟩
      · simp only [run_migrations, current_rev, h, ht, Bool.and_true, Bool.false_and,
          Bool.false_eq_true, if_false, hsr, hsteps]
        rw [run_steps_cons_trans_live c h ht st0 rest none _ hst0, heq]
        simp [lastRevD_some, h]
      · rw [update_live _ _ _ _ h]
        have hx : s'.rows = rowsFor st0.fromRev := by
          rw [hr, execCustoms_rows, hfrom]
          exact hs1
        simp [logWrite, hx, writeRows_rowsFor, lastToRevD]
      · rw [update_write_calls]
        simp only [logWrite]
        rw [hw, execCustoms_write_calls]
        simp [runWrites_trans c ht]

lemma chainb_adj : ∀ (l : List MigrationStep) (a : RevisionId) (p b : MigrationStep)
    (r : List MigrationStep), chainb a (l ++ p :: b :: r) = true → b.fromRev = p.toRev := by
  intro l
  induction l with
  | nil =>
    intro a p b r hc
    simp only [List.nil_append, chainb, Bool.and_eq_true, beq_iff_eq] at hc
    exact hc.2.1
  | cons st lt ih =>
    intro a p b r hc
    simp only [List.cons_append, chainb, Bool.and_eq_true, beq_iff_eq] at hc
    exact ih st.toRev p b r hc.2

lemma countHeaders_append : ∀ a b : List OutputItem,
    countHeaders (a ++ b) = countHeaders a + countHeaders b := by
  intro a b
  induction a with
  | nil => simp [countHeaders]
  | cons it rest ih => simp [countHeaders, ih, Nat.add_assoc]

lemma countHeaders_map_stmt : ∀ l : List Stmt,
    countHeaders (l.map OutputItem.stmt) = 0 := by
  intro l
  induction l with
  | nil => simp [countHeaders]
  | cons st rest ih => simp [countHeaders, isHeader, ih]

lemma countHeaders_map_custom : ∀ l : List String,
    countHeaders (l.map fun t => OutputItem.stmt (.custom t)) = 0 := by
  intro l
  induction l with
  | nil => simp [countHeaders]
  | cons t rest ih => simp [countHeaders, isHeader, ih]

lemma countHeaders_sqlRender (c : Ctx) :
    ∀ steps : List MigrationStep, countHeaders (sqlRender c steps) = steps.length := by
  intro steps
  induction steps with
  | nil => simp [sqlRender, countHeaders]
  | cons st rest ih =>
    cases ht : c.transactional_ddl <;>
      simp [sqlRender, stepRender, ht, countHeaders_append, countHeaders, isHeader,
        stepHeader, countHeaders_map_custom, countHeaders_map_stmt, ih, Nat.add_comm]

lemma countHeaders_sqlRunRender (c : Ctx) (steps : List MigrationStep) :
    countHeaders (sqlRunRender c steps) = steps.length := by
  cases steps with
  | nil =>
    cases ht : c.transactional_ddl <;>
      simp [sqlRunRender, ht, countHeaders_append, countHeaders, isHeader]
  | cons st0 rest =>
    cases ht : c.transactional_ddl <;>
      cases hc : pyTruthy st0.fromRev <;>
        cases hfin : pyTruthy (lastToRevD rest st0.toRev) <;>
          simp [sqlRunRender, ht, hc, hfin, countHeaders_append, countHeaders, isHeader,
            countHeaders_sqlRender, countHeaders_map_stmt, stepHeader,
            countHeaders_map_custom, Nat.add_comm]

lemma markers_not_mem_sqlRender (c : Ctx) :
    ∀ steps : List MigrationStep, OutputItem.beginMarker ∉ sqlRender c steps ∧
      OutputItem.commitMarker ∉ sqlRender c steps := by
  intro steps
  induction steps with
  | nil => simp [sqlRender]
  | cons st rest ih =>
    cases ht : c.transactional_ddl <;>
      simp [sqlRender, stepRender, ht, stepHeader, ih.1, ih.2]

lemma markers_not_mem_sqlRunRender (c : Ctx) (ht : c.transactional_ddl = false)
    (steps : List MigrationStep) :
    OutputItem.beginMarker ∉ sqlRunRender c steps ∧
      OutputItem.commitMarker ∉ sqlRunRender c steps := by
  cases steps with
  | nil => simp [sqlRunRender, ht]
  | cons st0 rest =>
    have h1 := markers_not_mem_sqlRender c (st0 :: rest)
    cases hc : pyTruthy st0.fromRev <;>
      cases hfin : pyTruthy (lastToRevD rest st0.toRev) <;>
        simp [sqlRunRender, ht, hc, hfin, h1.1, h1.2]

lemma sqlRunRender_trans_shape (c : Ctx) (ht : c.transactional_ddl = true)
    (steps : List MigrationStep) :
    ∃ mid, sqlRunRender c steps
      = OutputItem.beginMarker :: mid ++ [OutputItem.commitMarker] := by
  refine ⟨?_, ?_⟩
  · exact (match steps with
      | [] => []
      | st0 :: rest =>
        (if !pyTruthy st0.fromRev then [OutputItem.stmt .createTable] else [])
        ++ sqlRender c (st0 :: rest)
        ++ (versionStmts st0.fromRev (lastToRevD rest st0.toRev)).map OutputItem.stmt
        ++ (if !pyTruthy (lastToRevD rest st0.toRev) then [OutputItem.stmt .dropTable]
            else []))
  · cases steps <;> simp [sqlRunRender, ht, List.append_assoc]

/-- C1: for every run with transactional durability in which the sequencer
yields at least one step and every step's apply function succeeds, exactly
one pointer write call is issued, and it is the single transition from the
run's anchor revision (captured as the first step's `fromRev`) to the final
step's `toRev`; the write-call trace records nothing else during the run. -/
theorem C1_transactional_single_pointer_write
    (c : Ctx) (fn : RevisionId → List MigrationStep) (s : RunState)
    (st0 : MigrationStep) (rest : List MigrationStep)
    (htrans : c.transactional_ddl = true)
    (hstart : c.as_sql = true ∨ pyTruthy c.start_from_rev = false)
    (hsteps : fn (anchorOf c s) = st0 :: rest)
    (hok : allOk (st0 :: rest) = true) :
    ∃ s', run_migrations c fn s = .ok s' ∧
      s'.write_calls = s.write_calls ++ [(st0.fromRev, lastToRevD rest st0.toRev)] := by
  obtain ⟨hst0, hrest⟩ : st0.ok = true ∧ allOk rest = true := by
    simpa [allOk, Bool.and_eq_true] using hok
  cases hq : c.as_sql
  · rcases hstart with hq' | hsr
    · exact absurd hq' (by simp [hq])
    · have hanchor : anchorOf c s = s.rows.head? := by simp [anchorOf, hq]
      rw [hanchor] at hsteps
      obtain ⟨s', heq, hw, _, _, _⟩ :=
        run_steps_trans c htrans rest st0.fromRev (some st0.toRev)
          (execCustoms c { s with table_exists := true } st0.stmts) hrest
      refine ⟨update_current_rev c
          (logWrite s' st0.fromRev (lastToRevD rest st0.toRev))
          st0.fromRev (lastToRevD rest st0.toRev), ?_, ?_⟩
      · simp only [run_migrations, current_rev, hq, htrans, Bool.false_and,
          Bool.false_eq_true, if_false, hsr, hsteps]
        rw [run_steps_cons_trans_live c hq htrans st0 rest none _ hst0, heq]
        simp [lastRevD_some, hq]
      · rw [update_write_calls]
        simp only [logWrite]
        rw [hw, execCustoms_write_calls]
  · have hanchor : anchorOf c s = c.start_from_rev := by simp [anchorOf, hq]
    rw [hanchor] at hsteps
    have hok' : allOk (fn c.start_from_rev) = true := by rw [hsteps]; exact hok
    refine ⟨_, run_sql_ok c fn s hq hok', ?_⟩
    rw [hsteps]
    simp [runWrites_trans c htrans]

/-- C2: for every Live-mode run with non-transactional durability whose step
sequence is a succeeding chain followed by a failing step, the run aborts
with that step's error, the persisted pointer equals exactly the `toRev` of
the step before the failing one, and the write-call trace shows one
immediate pointer write per completed step and nothing for the failing step
or the steps after it. -/
theorem C2_nontransactional_abort_keeps_last_step
    (c : Ctx) (fn : RevisionId → List MigrationStep) (s : RunState)
    (pre : List MigrationStep) (prevStep bad : MigrationStep)
    (rest : List MigrationStep)
    (hsql : c.as_sql = false) (htrans : c.transactional_ddl = false)
    (hsr : pyTruthy c.start_from_rev = false)
    (hone : s.rows = rowsFor s.rows.head?)
    (hsteps : fn s.rows.head? = pre ++ prevStep :: bad :: rest)
    (hchain : chainb s.rows.head? (pre ++ prevStep :: bad :: rest) = true)
    (hok : allOk (pre ++ [prevStep]) = true)
    (hbad : bad.ok = false) :
    ∃ s_err, run_migrations c fn s = .error (bad.name ++ " failed", s_err) ∧
      s_err.rows = rowsFor prevStep.toRev ∧
      s_err.write_calls = s.write_calls
        ++ (pre ++ [prevStep]).map (fun st => (st.fromRev, st.toRev)) := by
  have hl : pre ++ prevStep :: bad :: rest = (pre ++ [prevStep]) ++ bad :: rest := by
    simp
  rw [hl] at hsteps hchain
  have hadj : bad.fromRev = prevStep.toRev := by
    refine chainb_adj pre s.rows.head? prevStep bad rest ?_
    rw [hl]
    exact hchain
  have hs1 : ({ s with table_exists := true } : RunState).rows = rowsFor s.rows.head? := hone
  obtain ⟨s_err, heq, hr, hw⟩ :=
    run_steps_fail c hsql htrans (pre ++ [prevStep]) bad rest none none s.rows.head?
      { s with table_exists := true } hok hbad hchain hs1
  refine ⟨s_err, ?_, ?_, ?_⟩
  · simp only [run_migrations, current_rev, hsql, Bool.false_and, Bool.false_eq_true,
      if_false, hsr, hsteps]
    rw [heq]
  · rw [hr, hadj]
  · exact hw

/-- C3: the pointer write operation, executed against a live connection, is
a no-op when the revisions coincide; otherwise it deletes every pointer row
(issuing a `DELETE`) when the new revision is `none`, appends a fresh row
(issuing an `INSERT`) when the old revision is `none`, and rewrites the
existing rows in place (issuing an `UPDATE`) in all remaining cases. -/
theorem C3_pointer_write_case_analysis (c : Ctx) (s : RunState)
    (old nw : RevisionId) (hsql : c.as_sql = false) :
    update_current_rev c s old nw =
      { s with
          rows := if old = nw then s.rows
            else match nw with
              | none => []
              | some v => match old with
                | none => s.rows ++ [v]
                | some _ => s.rows.map fun _ => v,
          live_execs := s.live_execs ++
            (if old = nw then []
             else match nw with
               | none => [Stmt.deleteVersion]
               | some v => match old with
                 | none => [Stmt.insertVersion v]
                 | some _ => [Stmt.updateVersion v]) } := by
  rw [update_live c s old nw hsql]
  simp only [writeRows, versionStmts]

/-- C4: a run whose sequencer yields zero steps leaves the pointer rows
unchanged, records no pointer write call, and executes no statement against
the live store, in either mode and either durability setting. -/
theorem C4_empty_run_no_writes
    (c : Ctx) (fn : RevisionId → List MigrationStep) (s : RunState)
    (hstart : c.as_sql = true ∨ pyTruthy c.start_from_rev = false)
    (hsteps : fn (anchorOf c s) = []) :
    ∃ s', run_migrations c fn s = .ok s' ∧ s'.rows = s.rows ∧
      s'.write_calls = s.write_calls ∧ s'.live_execs = s.live_execs := by
  cases hq : c.as_sql
  · rcases hstart with hq' | hsr
    · exact absurd hq' (by simp [hq])
    · have hanchor : anchorOf c s = s.rows.head? := by simp [anchorOf, hq]
      rw [hanchor] at hsteps
      refine ⟨{ s with table_exists := true }, ?_, rfl, rfl, rfl⟩
      simp [run_migrations, current_rev, hq, hsr, hsteps, run_steps]
  · have hanchor : anchorOf c s = c.start_from_rev := by simp [anchorOf, hq]
    rw [hanchor] at hsteps
    have hok' : allOk (fn c.start_from_rev) = true := by rw [hsteps]; rfl
    refine ⟨_, run_sql_ok c fn s hq hok', rfl, ?_, rfl⟩
    rw [hsteps]
    simp [runWrites]

/-- C5 counterexample: calling `configure` with a live connection and a
truthy `starting_rev` does not fail; it returns normally, storing the
starting revision in the registry and the built context. -/
theorem C5_counterexample_configure_succeeds :
    configure emptyOpts true none none none none (some "x") none
      = .ok ({ emptyOpts with starting_rev := some "x" },
             { has_connection := true, as_sql := false, output_buffer := none,
               transactional_ddl := none, starting_rev := some "x" }) := by
  rfl

/-- C5 (amended): supplying `starting_rev` together with a live connection
is accepted by `configure` itself; the `CommandError` surfaces on the first
current-revision read of the next run, still before any migration step
executes and with the run state untouched. -/
theorem C5_conflict_raised_at_run_not_configure
    (o : ContextOpts) (sr : Option String) (dd : Bool)
    (fn : RevisionId → List MigrationStep) (s : RunState)
    (hsr : pyTruthy sr = true)
    (hno : o.as_sql = none ∨ o.as_sql = some false) :
    ∃ b, configure o true none none none none sr none
        = .ok ({ o with starting_rev := sr }, b) ∧
      run_migrations (toCtx b dd) fn s = .error (startingRevError, s) := by
  have hb : configure o true none none none none sr none
      = .ok ({ o with starting_rev := sr },
        { has_connection := true, as_sql := o.as_sql.getD false,
          output_buffer := o.output_buffer, transactional_ddl := o.transactional_ddl,
          starting_rev := sr }) := by
    simp [configure, hsr, pyTruthy_none]
  refine ⟨_, hb, ?_⟩
  have hq : o.as_sql.getD false = false := by rcases hno with h | h <;> simp [h]
  simp [run_migrations, current_rev, toCtx, hq, hsr]

/-- C6: a Rendering-mode run in which every step succeeds executes nothing
against the live store (statement trace, pointer rows and table existence
unchanged), renders exactly one block per applied step — the step's header
followed by that step's statements (with non-transactional DDL the block
also carries the immediate pointer statement) as laid out by `sqlRunRender`
— with exactly one header per step, and the output starts with a
transaction-begin marker and ends with a transaction-commit marker exactly
when durability is transactional. -/
theorem C6_rendering_isolation
    (c : Ctx) (fn : RevisionId → List MigrationStep) (s : RunState)
    (hsql : c.as_sql = true) (hok : allOk (fn c.start_from_rev) = true)
    (hout : s.output = []) :
    ∃ s', run_migrations c fn s = .ok s' ∧
      s'.live_execs = s.live_execs ∧ s'.rows = s.rows ∧
      s'.table_exists = s.table_exists ∧
      s'.output = sqlRunRender c (fn c.start_from_rev) ∧
      countHeaders s'.output = (fn c.start_from_rev).length ∧
      (c.transactional_ddl = true → ∃ mid, s'.output
          = OutputItem.beginMarker :: mid ++ [OutputItem.commitMarker]) ∧
      (c.transactional_ddl = false → OutputItem.beginMarker ∉ s'.output ∧
          OutputItem.commitMarker ∉ s'.output) := by
  refine ⟨_, run_sql_ok c fn s hsql hok, rfl, rfl, rfl, ?_, ?_, ?_, ?_⟩
  · simp [hout]
  · simp [hout, countHeaders_sqlRunRender]
  · intro ht
    simpa [hout] using sqlRunRender_trans_shape c ht (fn c.start_from_rev)
  · intro ht
    simpa [hout] using markers_not_mem_sqlRunRender c ht (fn c.start_from_rev)

/-- C7: starting from the `none` revision, a successful Live-mode chain of
steps ending at `"b2"` leaves the pointer table holding exactly the row
`"b2"`; a subsequent successful chain from `"b2"` back to `none` removes
the row entirely; and a Rendering-mode run whose final revision is `none`
renders the pointer-table removal statement. -/
theorem C7_pointer_lifecycle
    (c c2 : Ctx) (fn1 fn2 fn3 : RevisionId → List MigrationStep) (s : RunState)
    (st3 : MigrationStep) (rest3 : List MigrationStep)
    (hsql : c.as_sql = false) (hsr : pyTruthy c.start_from_rev = false)
    (hrows0 : s.rows = [])
    (hchain1 : chainb none (fn1 none) = true) (hok1 : allOk (fn1 none) = true)
    (hfin1 : lastToRevD (fn1 none) none = some "b2")
    (hchain2 : chainb (some "b2") (fn2 (some "b2")) = true)
    (hok2 : allOk (fn2 (some "b2")) = true)
    (hfin2 : lastToRevD (fn2 (some "b2")) (some "b2") = none)
    (hsql3 : c2.as_sql = true) (hok3 : allOk (fn3 c2.start_from_rev) = true)
    (hsteps3 : fn3 c2.start_from_rev = st3 :: rest3)
    (hfin3 : lastToRevD rest3 st3.toRev = none) :
    (∃ s1, run_migrations c fn1 s = .ok s1 ∧ s1.rows = ["b2"] ∧
       ∃ s2, run_migrations c fn2 s1 = .ok s2 ∧ s2.rows = []) ∧
    (∃ s3, run_migrations c2 fn3 s = .ok s3 ∧
       OutputItem.stmt .dropTable ∈ s3.output) := by
  constructor
  · have hhead : s.rows.head? = none := by rw [hrows0]; rfl
    have hone : s.rows = rowsFor s.rows.head? := by rw [hrows0]; rfl
    obtain ⟨s1, heq1, hr1, _⟩ := run_live_ok c fn1 s hsql hsr hone
      (by rw [hhead]; exact hchain1) (by rw [hhead]; exact hok1)
    have hr1' : s1.rows = ["b2"] := by
      rw [hr1, hhead, hfin1]; rfl
    have hhead2 : s1.rows.head? = some "b2" := by rw [hr1']; rfl
    have hone2 : s1.rows = rowsFor s1.rows.head? := by rw [hr1']; rfl
    obtain ⟨s2, heq2, hr2, _⟩ := run_live_ok c fn2 s1 hsql hsr hone2
      (by rw [hhead2]; exact hchain2) (by rw [hhead2]; exact hok2)
    have hr2' : s2.rows = [] := by
      rw [hr2, hhead2, hfin2]; rfl
    exact ⟨s1, heq1, hr1', s2, heq2, hr2'⟩
  · refine ⟨_, run_sql_ok c2 fn3 s hsql3 hok3, ?_⟩
    refine List.mem_append.mpr (Or.inr ?_)
    rw [hsteps3]
    cases ht3 : c2.transactional_ddl <;>
      simp [sqlRunRender, ht3, hfin3, pyTruthy_none]

/-- C8: the current-revision read in Live mode, when no override was
configured, marks the pointer storage as created and returns the stored
revision — `none` when no row exists; in Rendering mode it queries nothing
and returns the externally supplied override, which defaults to `none`. -/
theorem C8_current_rev_read (c : Ctx) (s : RunState) :
    (c.as_sql = true → current_rev c s = .ok (c.start_from_rev, s)) ∧
    (c.as_sql = false → pyTruthy c.start_from_rev = false →
      current_rev c s = .ok (s.rows.head?, { s with table_exists := true })) := by
  constructor
  · intro h
    simp [current_rev, h]
  · intro h hsr
    simp [current_rev, h, hsr]

/-- The registry contents after a `configure` call that stored all four
persisted options. -/
def storedOpts (o : ContextOpts) (tddl : Bool) (obuf : Nat) (sr0 tg0 : String) :
    ContextOpts :=
  { o with
    transactional_ddl := some tddl,
    output_buffer := some obuf,
    starting_rev := some sr0,
    tag := some tg0 }

/-- C9: options stored by one `configure` call persist in the process-wide
registry: a later call that omits `transactional_ddl` and `output_buffer`
and passes falsy `starting_rev` and `tag` leaves the registry unchanged and
builds its context from the previously stored values, while a call made
after the registry is cleared falls back to the absent defaults. -/
theorem C9_registry_persistence (o : ContextOpts) (tddl : Bool) (obuf : Nat)
    (sr0 tg0 : String) (sr tg : Option String)
    (hsr0 : (sr0 == "") = false) (htg0 : (tg0 == "") = false)
    (hsr : pyTruthy sr = false) (htg : pyTruthy tg = false) :
    configure o true none none (some tddl) (some obuf) (some sr0) (some tg0)
      = .ok (storedOpts o tddl obuf sr0 tg0,
             { has_connection := true, as_sql := o.as_sql.getD false,
               output_buffer := some obuf, transactional_ddl := some tddl,
               starting_rev := some sr0 }) ∧
    configure (storedOpts o tddl obuf sr0 tg0) true none none none none sr tg
      = .ok (storedOpts o tddl obuf sr0 tg0,
             { has_connection := true, as_sql := o.as_sql.getD false,
               output_buffer := some obuf, transactional_ddl := some tddl,
               starting_rev := some sr0 }) ∧
    configure (clearOpts (storedOpts o tddl obuf sr0 tg0))
        true none none none none none none
      = .ok (emptyOpts,
             { has_connection := true, as_sql := false, output_buffer := none,
               transactional_ddl := none, starting_rev := none }) := by
  refine ⟨?_, ?_, ?_⟩
  · simp [configure, storedOpts, pyTruthy, hsr0, htg0]
  · simp [configure, storedOpts, hsr, htg]
  · simp [configure, clearOpts, emptyOpts, pyTruthy_none]

/-- C10: when both revisions are non-none and differ, the pointer write is
an unconditional in-place update determined only by the new value: writes
from two different old revisions issue the same single `UPDATE` statement
and produce the same resulting state. -/
theorem C10_update_ignores_old_value (c : Ctx) (s : RunState) (o1 o2 n : String)
    (h1 : o1 ≠ n) (h2 : o2 ≠ n) (_h12 : o1 ≠ o2) :
    versionStmts (some o1) (some n) = [Stmt.updateVersion n] ∧
    update_current_rev c s (some o1) (some n)
      = update_current_rev c s (some o2) (some n) := by
  constructor
  · simp [versionStmts, h1]
  · simp [update_current_rev, h1, h2]

/-- Concrete witness data: an upgrade chain from the empty state to
revision `"b2"`, a downgrade chain back to the empty state, and one
failing step. -/
def wUp1 : MigrationStep := ⟨"up1", ["ddl1"], true, none, some "a1"⟩

def wUp2 : MigrationStep := ⟨"up2", ["ddl2"], true, some "a1", some "b2"⟩

def wDown1 : MigrationStep := ⟨"down1", ["ddl3"], true, some "b2", some "a1"⟩

def wDown2 : MigrationStep := ⟨"down2", ["ddl4"], true, some "a1", none⟩

def wBad : MigrationStep := ⟨"bad", ["ddl5"], false, some "a1", some "c3"⟩

/-- A fresh run state: no version table, no rows, empty traces. -/
def wEmpty : RunState := ⟨false, [], [], [], []⟩

/-- Witness for C1 at a concrete transactional Live-mode run of two steps. -/
theorem C1_witness :
    ∃ s', run_migrations ⟨false, true, none⟩ (fun _ => [wUp1, wUp2]) wEmpty = .ok s' ∧
      s'.write_calls = wEmpty.write_calls ++ [(wUp1.fromRev, lastToRevD [wUp2] wUp1.toRev)] :=
  C1_transactional_single_pointer_write ⟨false, true, none⟩ (fun _ => [wUp1, wUp2])
    wEmpty wUp1 [wUp2] rfl (Or.inr rfl) rfl (by decide)

/-- Witness for C2: the second of two steps fails in a non-transactional
Live-mode run; the pointer stays at the first step's revision. -/
theorem C2_witness :
    ∃ s_err, run_migrations ⟨false, false, none⟩ (fun _ => [wUp1, wBad]) wEmpty
        = .error (wBad.name ++ " failed", s_err) ∧
      s_err.rows = rowsFor wUp1.toRev ∧
      s_err.write_calls = wEmpty.write_calls
        ++ (([] : List MigrationStep) ++ [wUp1]).map (fun st => (st.fromRev, st.toRev)) :=
  C2_nontransactional_abort_keeps_last_step ⟨false, false, none⟩
    (fun _ => [wUp1, wBad]) wEmpty [] wUp1 wBad [] rfl rfl rfl rfl rfl (by decide)
    (by decide) rfl

/-- Witness for C3 at a concrete in-place update from `"a1"` to `"b2"`. -/
theorem C3_witness :
    update_current_rev ⟨false, false, none⟩ ⟨true, ["a1"], [], [], []⟩
        (some "a1") (some "b2")
      = ⟨true, ["b2"], [], [Stmt.updateVersion "b2"], []⟩ :=
  C3_pointer_write_case_analysis ⟨false, false, none⟩ ⟨true, ["a1"], [], [], []⟩
    (some "a1") (some "b2") rfl

/-- Witness for C4 at a concrete Live-mode run with zero steps. -/
theorem C4_witness :
    ∃ s', run_migrations ⟨false, false, none⟩ (fun _ => []) wEmpty = .ok s' ∧
      s'.rows = wEmpty.rows ∧ s'.write_calls = wEmpty.write_calls ∧
      s'.live_execs = wEmpty.live_execs :=
  C4_empty_run_no_writes ⟨false, false, none⟩ (fun _ => []) wEmpty (Or.inr rfl) rfl

/-- Witness for the amended C5 at a concrete configure-then-run cycle. -/
theorem C5_witness :
    ∃ b, configure emptyOpts true none none none none (some "x") none
        = .ok ({ emptyOpts with starting_rev := some "x" }, b) ∧
      run_migrations (toCtx b false) (fun _ => []) wEmpty
        = .error (startingRevError, wEmpty) :=
  C5_conflict_raised_at_run_not_configure emptyOpts (some "x") false (fun _ => [])
    wEmpty (by decide) (Or.inl rfl)

/-- Witness for C6 at a concrete transactional Rendering-mode run. -/
theorem C6_witness :
    ∃ s', run_migrations ⟨true, true, none⟩ (fun _ => [wUp1, wUp2]) wEmpty = .ok s' ∧
      s'.live_execs = wEmpty.live_execs ∧ s'.rows = wEmpty.rows ∧
      s'.table_exists = wEmpty.table_exists ∧
      s'.output = sqlRunRender ⟨true, true, none⟩ [wUp1, wUp2] ∧
      countHeaders s'.output = ([wUp1, wUp2] : List MigrationStep).length ∧
      ((⟨true, true, none⟩ : Ctx).transactional_ddl = true → ∃ mid, s'.output
          = OutputItem.beginMarker :: mid ++ [OutputItem.commitMarker]) ∧
      ((⟨true, true, none⟩ : Ctx).transactional_ddl = false →
          OutputItem.beginMarker ∉ s'.output ∧ OutputItem.commitMarker ∉ s'.output) :=
  C6_rendering_isolation ⟨true, true, none⟩ (fun _ => [wUp1, wUp2]) wEmpty rfl
    (by decide) rfl

/-- Witness for C7 at the concrete upgrade-then-downgrade lifecycle. -/
theorem C7_witness :
    (∃ s1, run_migrations ⟨false, false, none⟩ (fun _ => [wUp1, wUp2]) wEmpty
        = .ok s1 ∧ s1.rows = ["b2"] ∧
       ∃ s2, run_migrations ⟨false, false, none⟩ (fun _ => [wDown1, wDown2]) s1
          = .ok s2 ∧ s2.rows = []) ∧
    (∃ s3, run_migrations ⟨true, false, some "b2"⟩ (fun _ => [wDown1, wDown2]) wEmpty
        = .ok s3 ∧ OutputItem.stmt .dropTable ∈ s3.output) :=
  C7_pointer_lifecycle ⟨false, false, none⟩ ⟨true, false, some "b2"⟩
    (fun _ => [wUp1, wUp2]) (fun _ => [wDown1, wDown2]) (fun _ => [wDown1, wDown2])
    wEmpty wDown1 [wDown2] rfl rfl rfl (by decide) (by decide) (by decide)
    (by decide) (by decide) (by decide) rfl (by decide) rfl (by decide)

/-- Witness for C8 in both modes at concrete states. -/
theorem C8_witness :
    current_rev ⟨true, false, some "x"⟩ wEmpty = .ok (some "x", wEmpty) ∧
    current_rev ⟨false, false, none⟩ ⟨false, ["a1"], [], [], []⟩
      = .ok (some "a1", ⟨true, ["a1"], [], [], []⟩) :=
  ⟨(C8_current_rev_read ⟨true, false, some "x"⟩ wEmpty).1 rfl,
   (C8_current_rev_read ⟨false, false, none⟩ ⟨false, ["a1"], [], [], []⟩).2 rfl rfl⟩

/-- Witness for C9 at a concrete pair of configure calls and a cleared
registry. -/
theorem C9_witness :
    configure emptyOpts true none none (some true) (some 7) (some "s0") (some "t0")
      = .ok (storedOpts emptyOpts true 7 "s0" "t0",
             { has_connection := true, as_sql := false, output_buffer := some 7,
               transactional_ddl := some true, starting_rev := some "s0" }) ∧
    configure (storedOpts emptyOpts true 7 "s0" "t0") true none none none none
        none none
      = .ok (storedOpts emptyOpts true 7 "s0" "t0",
             { has_connection := true, as_sql := false, output_buffer := some 7,
               transactional_ddl := some true, starting_rev := some "s0" }) ∧
    configure (clearOpts (storedOpts emptyOpts true 7 "s0" "t0"))
        true none none none none none none
      = .ok (emptyOpts,
             { has_connection := true, as_sql := false, output_buffer := none,
               transactional_ddl := none, starting_rev := none }) :=
  C9_registry_persistence emptyOpts true 7 "s0" "t0" none none (by decide) (by decide)
    rfl rfl

/-- Witness for C10 at two concrete distinct old revisions. -/
theorem C10_witness :
    versionStmts (some "a") (some "c") = [Stmt.updateVersion "c"] ∧
    update_current_rev ⟨false, false, none⟩ wEmpty (some "a") (some "c")
      = update_current_rev ⟨false, false, none⟩ wEmpty (some "b") (some "c") :=
  C10_update_ignores_old_value ⟨false, false, none⟩ wEmpty "a" "b" "c"
    (by decide) (by decide) (by decide)

end Alembic
